import Mathlib

/-!
Verification of the watcher core of the `muso` repository
(`src/lib/watcher.rs`), shallowly embedded in Lean.

Paths are modelled as the list of their components below the filesystem
root, so `[]` is `/` and `["music", "Jazz"]` is `/music/Jazz`.  All paths
handled by the watcher are absolute.  The filesystem queries `is_file` /
`is_dir` are modelled by an oracle `FS`, and the sorting engine
(`src/sorting.rs`, not present under `src/`) by an oracle `SortEngine`
following the interface in the specification.
-/

namespace Muso

/-- An absolute filesystem path, as its list of components. -/
abbrev Path := List String

/-- `Path::parent`: `None` for the filesystem root, otherwise the path with
its last component dropped. -/
def parent : Path → Option Path
  | [] => none
  | p@(_ :: _) => some p.dropLast

/-- Auxiliary recursion for `ancestors`, structural in a fuel argument: one
unit of fuel per parent step.  With fuel at least the path's length it
follows the parent chain down to the filesystem root. -/
def ancestorsFuel : Nat → Path → List Path
  | _, [] => [[]]
  | 0, p => [p]
  | n + 1, a :: t => (a :: t) :: ancestorsFuel n (a :: t).dropLast

/-- `Path::ancestors`: the path itself, then its parent, and so on up to the
filesystem root.  A path of length `n` has exactly `n` parent steps, so
`n` units of fuel traverse the whole chain. -/
def ancestors (p : Path) : List Path := ancestorsFuel p.length p

/-- `root.join(path)` where `path` is absolute: Rust `Path::join` discards
`root` entirely when its argument is an absolute path, which is the case for
every path in this model. -/
def joinAbs (_root p : Path) : Path := p

/-- Filesystem oracle for the `is_file` / `is_dir` queries made by the
watcher. -/
structure FS where
  isFile : Path → Bool
  isDir : Path → Bool

/-- The options record handed to the sorting engine (`sorting::Options`). -/
structure Options where
  format : String
  dryrun : Bool
  recursive : Bool
  exfat_compat : Bool
  remove_empty : Bool
deriving DecidableEq

/-- The report returned by `sort_folder`. -/
structure Report where
  total : Nat
  success : Nat
  new_paths : List Path
deriving DecidableEq

/-- Opaque payload of a sorting-engine failure. -/
abbrev SortErr := String

/-- The library-level error type as used by the watcher: `InvalidRoot` and
`InvalidParent` are raised by the watcher itself, and any sorting-engine
failure is wrapped as `sortError`. -/
inductive Error where
  | invalidRoot (path : Path)
  | invalidParent (child : Path)
  | sortError (e : SortErr)
deriving DecidableEq

/-- Modelled from the spec: the sorting-engine interface of §6
(`sort_file(root, path, options) -> Result<new_path, SortError>` and
`sort_folder(root, path, options) -> Result<Report, SortError>`); the
engine itself (`src/sorting.rs`) is not part of the sources under `src/`. -/
structure SortEngine where
  sort_file : Path → Path → Options → Except SortErr Path
  sort_folder : Path → Path → Options → Except SortErr Report

/-- Modelled from the spec: a library groups one or more root directories
and carries a format string and per-library option flags (§3, §6);
`src/config.rs` is not part of the sources under `src/`. -/
structure Library where
  folders : List Path
  format : Option String
  exfat_compat : Bool
deriving DecidableEq

/-- Modelled from the spec: the configuration maps library names to
libraries (§6). -/
structure Config where
  libraries : List (String × Library)
deriving DecidableEq

/-- Modelled from the spec: `format_of` returns the library's configured
format string, if any. -/
def Config.format_of (cfg : Config) (name : String) : Option String :=
  (cfg.libraries.lookup name).bind (·.format)

/-- Modelled from the spec: `is_exfat_compat` returns the library's
configured FAT32-compatibility flag. -/
def Config.is_exfat_compat (cfg : Config) (name : String) : Bool :=
  ((cfg.libraries.lookup name).map (·.exfat_compat)).getD false

/-- The watcher state: configuration, the Root Index (`roots`, a map from
watched root directory to library name, modelled as an association list),
and the Ignore Set (`ignore`, modelled as a duplicate-free list). -/
structure Watcher where
  config : Config
  roots : List (Path × String)
  ignore : List Path
deriving DecidableEq

/-- `HashSet::insert`: add a path to the ignore set (no duplicates). -/
def insertIgnore (p : Path) (s : List Path) : List Path :=
  if p ∈ s then s else p :: s

/-- `HashSet::remove`: delete a path from the ignore set. -/
def removeIgnore (p : Path) (s : List Path) : List Path :=
  s.filter (fun q => decide (q ≠ p))

/-- `Watcher::ignore_path` (watcher.rs lines 111-131): record a produced
path.  Fails with `InvalidParent` when the path has no parent; otherwise
inserts the parent (when it differs from the watched root) and then the
path itself (`root.join(path)`, which is `path` since it is absolute). -/
def ignore_path (w : Watcher) (p root : Path) : Except Error Watcher :=
  match parent p with
  | none => .error (.invalidParent p)
  | some par =>
    let ig1 := if par ≠ root then insertIgnore par w.ignore else w.ignore
    let ig2 := insertIgnore (joinAbs root p) ig1
    .ok { w with ignore := ig2 }

/-- `Watcher::is_ignored` (watcher.rs lines 133-151): for a path that
currently exists as a file, exact membership in the ignore set; otherwise
true when some ignore entry is an existing directory of which the checked
path is a prefix (`ignored.starts_with(path)`). -/
def is_ignored (fs : FS) (w : Watcher) (p : Path) : Bool :=
  if fs.isFile p then decide (p ∈ w.ignore)
  else w.ignore.any fun e => fs.isDir e && decide (p <+: e)

/-- `Watcher::root_for` (watcher.rs lines 153-162): the first ancestor of
the path that is a key of the Root Index. -/
def root_for (w : Watcher) (p : Path) : Option Path :=
  (ancestors p).find? fun a => (w.roots.lookup a).isSome

/-- The event kinds the watch loop distinguishes (watcher.rs lines 71-102):
`create` (`EventKind::Create(_)`), `renameBoth`
(`Modify(ModifyKind::Name(RenameMode::Both))`), `other` (`EventKind::Other`)
and `misc` (the wildcard arm). -/
inductive EventKind where
  | create
  | renameBoth
  | other
  | misc
deriving DecidableEq

/-- A debounced event: a kind and its associated paths. -/
structure Event where
  kind : EventKind
  paths : List Path
deriving DecidableEq

/-- Log lines emitted by the watcher, by shape. -/
inductive LogMsg where
  | debugEvent (ev : Event)
  | errTransport
  | infoReport (success total : Nat)
  | infoFile
  | errSort (e : Error)
deriving DecidableEq

/-- `true` exactly for the success lines of `move_files`. -/
def LogMsg.isSuccess : LogMsg → Bool
  | .infoReport _ _ => true
  | .infoFile => true
  | _ => false

/-- A recorded invocation of the sorting engine. -/
inductive EngineCall where
  | file (root p : Path) (opts : Options)
  | folder (root p : Path) (opts : Options)
deriving DecidableEq

/-- The options record of an engine invocation. -/
def EngineCall.opts : EngineCall → Options
  | .file _ _ o => o
  | .folder _ _ o => o

/-- The root argument of an engine invocation. -/
def EngineCall.root : EngineCall → Path
  | .file r _ _ => r
  | .folder r _ _ => r

/-- The path argument of an engine invocation. -/
def EngineCall.path : EngineCall → Path
  | .file _ p _ => p
  | .folder _ p _ => p

/-- The `options` record built by `move_files` (watcher.rs lines 168-174)
for the given library: format from the library's configuration, dry-run
off, recursive on, remove-empty on, FAT32 compatibility from the library's
configuration.  Rust unwraps the format (`.unwrap()`, a stated
precondition); the model totalises the absent case with `""`. -/
def optionsOf (w : Watcher) (library : String) : Options :=
  { format := (w.config.format_of library).getD ""
    dryrun := false
    recursive := true
    exfat_compat := w.config.is_exfat_compat library
    remove_empty := true }

instance {ε α : Type} [DecidableEq ε] [DecidableEq α] : DecidableEq (Except ε α) := fun x y =>
  match x, y with
  | .ok a, .ok b => if h : a = b then .isTrue (by rw [h]) else .isFalse (by simp [h])
  | .error a, .error b => if h : a = b then .isTrue (by rw [h]) else .isFalse (by simp [h])
  | .ok _, .error _ => .isFalse (by simp)
  | .error _, .ok _ => .isFalse (by simp)

/-- Outcome of one `move_files` call: the updated watcher, the log lines
emitted, the engine invocations made, and the returned result. -/
structure MoveResult where
  w : Watcher
  logs : List LogMsg
  calls : List EngineCall
  res : Except Error Unit
deriving DecidableEq

/-- The `for new_path in report.new_paths` loop of `move_files` (watcher.rs
lines 186-188): record each new path, stopping at the first `ignore_path`
error; earlier insertions are kept. -/
def ignoreAll (w : Watcher) (root : Path) : List Path → Watcher × Except Error Unit
  | [] => (w, .ok ())
  | p :: ps =>
    match ignore_path w p root with
    | .ok w' => ignoreAll w' root ps
    | .error e => (w, .error e)

/-- `Watcher::move_files` (watcher.rs lines 164-216): resolve the root (or
fail with `InvalidRoot`, unlogged), build the options for the root's
library, call `sort_folder` for a directory and `sort_file` otherwise, log
the outcome of the engine call, and on success record every resulting new
path in the ignore set. -/
def move_files (fs : FS) (eng : SortEngine) (w : Watcher) (p : Path) : MoveResult :=
  match root_for w p with
  | some root =>
    let library := (w.roots.lookup root).getD ""
    let options := optionsOf w library
    if fs.isDir p then
      match eng.sort_folder root p options with
      | .ok report =>
        let (w', res) := ignoreAll w root report.new_paths
        { w := w', logs := [.infoReport report.success report.total]
          calls := [.folder root p options], res := res }
      | .error e =>
        { w := w, logs := [.errSort (.sortError e)]
          calls := [.folder root p options], res := .error (.sortError e) }
    else
      match eng.sort_file root p options with
      | .ok new_path =>
        match ignore_path w new_path root with
        | .ok w' =>
          { w := w', logs := [.infoFile]
            calls := [.file root p options], res := .ok () }
        | .error e =>
          { w := w, logs := [.infoFile]
            calls := [.file root p options], res := .error e }
      | .error e =>
        { w := w, logs := [.errSort (.sortError e)]
          calls := [.file root p options], res := .error (.sortError e) }
  | none =>
    { w := w, logs := [], calls := [], res := .error (.invalidRoot p) }

/-- `Iterator::step_by(2)`: every second element, starting with the
first. -/
def stepBy2 : List α → List α
  | [] => []
  | [a] => [a]
  | a :: _ :: t => a :: stepBy2 t

/-- The candidate paths the watch loop extracts from one event
(watcher.rs lines 71-103): all paths of a create event, the paths at odd
indices (`iter().skip(1).step_by(2)`) of a rename-both event, and nothing
otherwise. -/
def candidates (ev : Event) : List Path :=
  match ev.kind with
  | .create => ev.paths
  | .renameBoth => stepBy2 (ev.paths.drop 1)
  | .other => []
  | .misc => []

/-- Outcome of a slice of the watch loop: the updated watcher, the log
lines, the engine invocations, and the candidate paths that were handed to
`move_files` (dispatched). -/
structure StepResult where
  w : Watcher
  logs : List LogMsg
  calls : List EngineCall
  dispatched : List Path
deriving DecidableEq

/-- The per-candidate body of the watch loop (watcher.rs lines 77-86 and
91-99): an ignored candidate is removed from the ignore set and skipped;
otherwise it is dispatched to `move_files`, whose result is discarded
(`Ok(_) => {}` / `Err(_) => continue`). -/
def handleCandidate (fs : FS) (eng : SortEngine) (w : Watcher) (p : Path) : StepResult :=
  if is_ignored fs w p then
    { w := { w with ignore := removeIgnore p w.ignore }
      logs := [], calls := [], dispatched := [] }
  else
    let r := move_files fs eng w p
    { w := r.w, logs := r.logs, calls := r.calls, dispatched := [p] }

/-- Sequential handling of a list of candidate paths. -/
def handleCandidates (fs : FS) (eng : SortEngine) (w : Watcher) : List Path → StepResult
  | [] => { w := w, logs := [], calls := [], dispatched := [] }
  | p :: ps =>
    let r := handleCandidate fs eng w p
    let r' := handleCandidates fs eng r.w ps
    { w := r'.w, logs := r.logs ++ r'.logs
      calls := r.calls ++ r'.calls, dispatched := r.dispatched ++ r'.dispatched }

/-- Handling of one event (watcher.rs lines 70-103): the `debug!` line,
then its candidates in order. -/
def handleEvent (fs : FS) (eng : SortEngine) (w : Watcher) (ev : Event) : StepResult :=
  let r := handleCandidates fs eng w (candidates ev)
  { r with logs := .debugEvent ev :: r.logs }

/-- Handling of one event batch, in delivery order. -/
def handleBatch (fs : FS) (eng : SortEngine) (w : Watcher) : List Event → StepResult
  | [] => { w := w, logs := [], calls := [], dispatched := [] }
  | ev :: evs =>
    let r := handleEvent fs eng w ev
    let r' := handleBatch fs eng r.w evs
    { w := r'.w, logs := r.logs ++ r'.logs
      calls := r.calls ++ r'.calls, dispatched := r.dispatched ++ r'.dispatched }

/-- Handling of one received `DebounceEventResult` (watcher.rs lines
62-106): a transport error is logged and skipped; a batch is handled. -/
def handleReceived (fs : FS) (eng : SortEngine) (w : Watcher) :
    Except Unit (List Event) → StepResult
  | .error _ => { w := w, logs := [.errTransport], calls := [], dispatched := [] }
  | .ok evs => handleBatch fs eng w evs

/-- One full pass of `for result in &rx` (watcher.rs line 61): drain the
receiver until it is closed or exhausted. -/
def drain (fs : FS) (eng : SortEngine) (w : Watcher) :
    List (Except Unit (List Event)) → StepResult
  | [] => { w := w, logs := [], calls := [], dispatched := [] }
  | r :: rs =>
    let s := handleReceived fs eng w r
    let s' := drain fs eng s.w rs
    { w := s'.w, logs := s.logs ++ s'.logs
      calls := s.calls ++ s'.calls, dispatched := s.dispatched ++ s'.dispatched }

/-- `Watcher::watchloop` (watcher.rs lines 59-109), fuel-indexed.  The body
is `loop { for result in &rx { ... } }`: each outer iteration drains the
receiver, and once the channel is closed every further pass sees an empty
stream.  The loop body contains no `break` and no `return`, so no branch of
this function produces `some`; `none` means "still looping after the given
number of outer iterations". -/
def watchloopFuel (fs : FS) (eng : SortEngine) :
    Nat → Watcher → List (Except Unit (List Event)) → Option Unit
  | 0, _, _ => none
  | fuel + 1, w, stream => watchloopFuel fs eng fuel (drain fs eng w stream).w []

/-- The directory-membership rule as the specification words it (§4.3):
membership holds when some entry of the ignore set is an existing directory
that is an ancestor-or-self of the checked path.  Stated only to be compared
with `is_ignored`, which the source defines with the opposite
`starts_with` direction. -/
def is_ignored_spec (fs : FS) (w : Watcher) (p : Path) : Bool :=
  if fs.isFile p then decide (p ∈ w.ignore)
  else w.ignore.any fun e => fs.isDir e && decide (e <+: p)

/-! Concrete fixtures used by witnesses and counterexamples. -/

/-- A configuration with one library `L` rooted at `/r`, format `"f"`,
FAT32 compatibility on. -/
def cfgL : Config := ⟨[("L", ⟨[["r"]], some "f", true⟩)]⟩

/-- A watcher for `cfgL` with Root Index `{/r ↦ L}` and empty ignore set. -/
def wL : Watcher := ⟨cfgL, [(["r"], "L")], []⟩

/-- A filesystem on which nothing exists. -/
def fsNone : FS := ⟨fun _ => false, fun _ => false⟩

/-- A filesystem on which every path is a file. -/
def fsFiles : FS := ⟨fun _ => true, fun _ => false⟩

/-- An engine that always fails; used where the engine is never reached. -/
def engNone : SortEngine := ⟨fun _ _ _ => .error "e", fun _ _ _ => .error "e"⟩

/-- Filesystem for the no-feedback scenario: `/r/Ar/t.mp3` is a file,
`/r/Ar` is a directory. -/
def fsC1 : FS := ⟨(· == ["r", "Ar", "t.mp3"]), (· == ["r", "Ar"])⟩

/-- Watcher state after the destination `/r/Ar/t.mp3` and its parent
`/r/Ar` have been recorded. -/
def wC1 : Watcher := ⟨cfgL, [(["r"], "L")], [["r", "Ar", "t.mp3"], ["r", "Ar"]]⟩

/-- Filesystem for the directory-rule scenario: only `/m/J/A/X` exists, as
a directory. -/
def fsC2 : FS := ⟨fun _ => false, (· == ["m", "J", "A", "X"])⟩

/-- Watcher whose ignore set records the sorted directory `/m/J/A/X`. -/
def wC2 : Watcher := ⟨⟨[]⟩, [], [["m", "J", "A", "X"]]⟩

/-- Filesystem for the one-shot scenario: `/r/A` and `/r/A/B` are
directories. -/
def fsC3 : FS := ⟨fun _ => false, fun p => p == ["r", "A"] || p == ["r", "A", "B"]⟩

/-- Watcher whose ignore set holds `/r/A` and the deeper entry `/r/A/B`. -/
def wC3 : Watcher := ⟨⟨[]⟩, [], [["r", "A"], ["r", "A", "B"]]⟩

/-- Engine for the partial-failure scenario: `sort_file` fails on `/r/b`
and otherwise moves `/r/x` to `/r/s/x`. -/
def engC7 : SortEngine :=
  ⟨fun root p _ => if p == ["r", "b"] then .error "boom" else .ok (root ++ "s" :: p.drop 1),
   fun _ _ _ => .error "unused"⟩

/-! Helper lemmas. -/

theorem mem_insertIgnore {p q : Path} {s : List Path} :
    q ∈ insertIgnore p s ↔ q = p ∨ q ∈ s := by
  by_cases h : p ∈ s
  · simp only [insertIgnore, if_pos h]
    exact ⟨Or.inr, fun hq => hq.elim (fun e => e ▸ h) id⟩
  · simp [insertIgnore, if_neg h, List.mem_cons]

theorem mem_removeIgnore {p q : Path} {s : List Path} :
    q ∈ removeIgnore p s ↔ q ∈ s ∧ q ≠ p := by
  simp [removeIgnore, List.mem_filter]

theorem ignore_path_ok {w w' : Watcher} {D root par : Path}
    (hpar : parent D = some par) (hmark : ignore_path w D root = .ok w') :
    w'.ignore = insertIgnore D (if par ≠ root then insertIgnore par w.ignore else w.ignore) ∧
    w'.config = w.config ∧ w'.roots = w.roots := by
  unfold ignore_path at hmark
  rw [hpar] at hmark
  simp only [joinAbs, Except.ok.injEq] at hmark
  subst hmark
  refine ⟨?_, ?_, ?_⟩ <;> rfl

theorem is_ignored_of_mem_file {fs : FS} {w : Watcher} {p : Path}
    (hf : fs.isFile p = true) (hm : p ∈ w.ignore) :
    is_ignored fs w p = true := by
  simp [is_ignored, hf, hm]

theorem is_ignored_of_mem_dir {fs : FS} {w : Watcher} {p e : Path}
    (hf : fs.isFile p = false) (hm : e ∈ w.ignore) (hd : fs.isDir e = true)
    (hpre : p <+: e) :
    is_ignored fs w p = true := by
  have hnf : ¬ (fs.isFile p = true) := by simp [hf]
  unfold is_ignored
  rw [if_neg hnf, List.any_eq_true]
  exact ⟨e, hm, by simp [hd, hpre]⟩

theorem handleCandidate_of_ignored {fs : FS} {eng : SortEngine} {w : Watcher} {p : Path}
    (hig : is_ignored fs w p = true) :
    handleCandidate fs eng w p =
      { w := { w with ignore := removeIgnore p w.ignore }
        logs := [], calls := [], dispatched := [] } := by
  simp [handleCandidate, hig]

theorem prefix_iff_eq_or_prefix_dropLast {a q : Path} (hq : q ≠ []) :
    a <+: q ↔ a = q ∨ a <+: q.dropLast := by
  have hdl := List.dropLast_prefix q
  constructor
  · intro h
    rcases Nat.lt_or_ge a.length q.length with hlt | hge
    · right
      refine List.prefix_of_prefix_length_le h hdl ?_
      rw [List.length_dropLast]
      omega
    · left
      exact h.eq_of_length (Nat.le_antisymm h.length_le hge)
  · rintro (rfl | h)
    · exact List.prefix_rfl
    · exact h.trans hdl

theorem mem_ancestorsFuel {n : Nat} {p a : Path} (hn : p.length ≤ n) :
    a ∈ ancestorsFuel n p ↔ a <+: p := by
  induction n generalizing p with
  | zero =>
    have : p = [] := List.length_eq_zero.1 (Nat.le_zero.1 hn)
    subst this
    simp [ancestorsFuel]
  | succ n ih =>
    cases p with
    | nil => simp [ancestorsFuel]
    | cons b t =>
      have hlen : (b :: t).dropLast.length ≤ n := by
        rw [List.length_dropLast]
        simpa using hn
      have hne : (b :: t) ≠ [] := by simp
      rw [ancestorsFuel, List.mem_cons, ih hlen,
        prefix_iff_eq_or_prefix_dropLast hne]

theorem mem_ancestors {p a : Path} : a ∈ ancestors p ↔ a <+: p :=
  mem_ancestorsFuel (Nat.le_refl _)

theorem lookup_isSome_iff_exists {l : List (Path × String)} {k : Path} :
    (l.lookup k).isSome = true ↔ ∃ v, (k, v) ∈ l := by
  rw [List.lookup_isSome_iff]
  constructor
  · rintro ⟨⟨k', v⟩, hm, hbeq⟩
    have hk : k = k' := by simpa using hbeq
    subst hk
    exact ⟨v, hm⟩
  · rintro ⟨v, hm⟩
    exact ⟨(k, v), hm, by simp⟩

theorem stepBy2_getElem? {α : Type} : ∀ (l : List α) (i : Nat), (stepBy2 l)[i]? = l[2 * i]?
  | [], i => by simp [stepBy2]
  | [a], 0 => by simp [stepBy2]
  | [a], i + 1 => by
    have h2 : 2 * (i + 1) = 2 * i + 1 + 1 := by omega
    simp [stepBy2, h2]
  | a :: b :: t, 0 => by simp [stepBy2]
  | a :: b :: t, i + 1 => by
    have h2 : 2 * (i + 1) = 2 * i + 1 + 1 := by omega
    rw [h2]
    simp only [stepBy2, List.getElem?_cons_succ]
    exact stepBy2_getElem? t i

/-! The claims. -/

/-- C1: when the dispatcher has successfully sorted a path to destination D
and `ignore_path` has recorded it, a later create event for D (an existing
file), and one for D's parent directory when that parent differs from the
watched root, are both classified as ignored and dispatch nothing to the
sorting engine. -/
theorem C1_no_feedback_loop (fs : FS) (eng : SortEngine) (w w' : Watcher)
    (root D par : Path)
    (hmark : ignore_path w D root = .ok w')
    (hpar : parent D = some par)
    (hfile : fs.isFile D = true)
    (hne : par ≠ root)
    (hdir : fs.isDir par = true) :
    is_ignored fs w' D = true ∧
    (handleEvent fs eng w' ⟨.create, [D]⟩).dispatched = [] ∧
    (handleEvent fs eng w' ⟨.create, [D]⟩).calls = [] ∧
    is_ignored fs w' par = true ∧
    (handleEvent fs eng w' ⟨.create, [par]⟩).dispatched = [] ∧
    (handleEvent fs eng w' ⟨.create, [par]⟩).calls = [] := by
  obtain ⟨hig, -, -⟩ := ignore_path_ok hpar hmark
  have hD : D ∈ w'.ignore := by
    rw [hig]
    exact mem_insertIgnore.2 (Or.inl rfl)
  have hP : par ∈ w'.ignore := by
    rw [hig, if_pos hne]
    exact mem_insertIgnore.2 (Or.inr (mem_insertIgnore.2 (Or.inl rfl)))
  have higD : is_ignored fs w' D = true := is_ignored_of_mem_file hfile hD
  have higP : is_ignored fs w' par = true := by
    cases hf : fs.isFile par with
    | true => exact is_ignored_of_mem_file hf hP
    | false => exact is_ignored_of_mem_dir hf hP hdir List.prefix_rfl
  refine ⟨higD, ?_, ?_, higP, ?_, ?_⟩ <;>
    simp [handleEvent, candidates, handleCandidates, handleCandidate, higD, higP]

/-- Witness for C1 at a concrete input: `/r/Ar/t.mp3` sorted under root
`/r`, parent `/r/Ar`. -/
theorem C1_no_feedback_loop_witness :
    is_ignored fsC1 wC1 ["r", "Ar", "t.mp3"] = true ∧
    (handleEvent fsC1 engNone wC1 ⟨.create, [["r", "Ar", "t.mp3"]]⟩).dispatched = [] ∧
    (handleEvent fsC1 engNone wC1 ⟨.create, [["r", "Ar", "t.mp3"]]⟩).calls = [] ∧
    is_ignored fsC1 wC1 ["r", "Ar"] = true ∧
    (handleEvent fsC1 engNone wC1 ⟨.create, [["r", "Ar"]]⟩).dispatched = [] ∧
    (handleEvent fsC1 engNone wC1 ⟨.create, [["r", "Ar"]]⟩).calls = [] :=
  C1_no_feedback_loop fsC1 engNone wL wC1 ["r"] ["r", "Ar", "t.mp3"] ["r", "Ar"]
    (by decide) (by decide) (by decide) (by decide) (by decide)

/-- C2 counterexample: the ignore set records the existing directory
`/m/J/A/X`, the nested non-file path `/m/J/A/X/t1` satisfies the claim's
ancestor-or-self condition (the spec-side check accepts it), yet
`is_ignored` returns false — the source compares `starts_with` in the
opposite direction, so the claimed suppression of
`/music/Jazz/Artist/AlbumX/track1.mp3` does not happen. -/
theorem C2_counterexample :
    fsC2.isFile ["m", "J", "A", "X", "t1"] = false ∧
    is_ignored_spec fsC2 wC2 ["m", "J", "A", "X", "t1"] = true ∧
    is_ignored fsC2 wC2 ["m", "J", "A", "X", "t1"] = false := by
  decide

/-- C2 (amended): for a checked path P that is not an existing file,
`should_ignore(P)` returns true iff some entry E of the ignore set is an
existing directory of which P is an ancestor-or-self (P is a prefix of E) —
the converse direction of the claim; nested paths below a recorded
directory entry are not suppressed. -/
theorem C2_dir_check_direction (fs : FS) (w : Watcher) (p : Path)
    (h : fs.isFile p = false) :
    is_ignored fs w p = true ↔ ∃ e ∈ w.ignore, fs.isDir e = true ∧ p <+: e := by
  have hnf : ¬ (fs.isFile p = true) := by simp [h]
  unfold is_ignored
  rw [if_neg hnf, List.any_eq_true]
  constructor
  · rintro ⟨e, hm, he⟩
    simp only [Bool.and_eq_true, decide_eq_true_eq] at he
    exact ⟨e, hm, he⟩
  · rintro ⟨e, hm, hd, hpre⟩
    exact ⟨e, hm, by simp [hd, hpre]⟩

/-- Witness for C2 (amended) at a concrete input: the checked path `/m/J`
is an ancestor of the recorded directory `/m/J/A/X`. -/
theorem C2_dir_check_direction_witness :
    is_ignored fsC2 wC2 ["m", "J"] = true ↔
      ∃ e ∈ wC2.ignore, fsC2.isDir e = true ∧ ["m", "J"] <+: e :=
  C2_dir_check_direction fsC2 wC2 ["m", "J"] (by decide)

/-- C3 counterexample: `/r/A` is in the ignore set and an event for it is
classified as ignored, but after the consuming removal the identical event
is suppressed again — the deeper entry `/r/A/B` caused the match, persists,
and still matches. -/
theorem C3_counterexample :
    (["r", "A"] : Path) ∈ wC3.ignore ∧
    is_ignored fsC3 wC3 ["r", "A"] = true ∧
    (handleCandidate fsC3 engNone wC3 ["r", "A"]).w.ignore = [["r", "A", "B"]] ∧
    is_ignored fsC3 (handleCandidate fsC3 engNone wC3 ["r", "A"]).w ["r", "A"] = true ∧
    (handleCandidate fsC3 engNone
      (handleCandidate fsC3 engNone wC3 ["r", "A"]).w ["r", "A"]).dispatched = [] := by
  decide

/-- C3 (amended): the consuming removal deletes the event's own path, not
the entry that caused the match; so when the suppressed path currently
exists as a file (exact-match case, path = entry) a subsequent identical
event is no longer suppressed, while a directory-rule match through a
different entry leaves that entry in the set and the event is suppressed
again. -/
theorem C3_one_shot_exact_match (fs : FS) (eng : SortEngine) (w : Watcher) (p : Path)
    (hf : fs.isFile p = true) (hig : is_ignored fs w p = true) :
    p ∉ ((handleCandidate fs eng w p).w).ignore ∧
    is_ignored fs ((handleCandidate fs eng w p).w) p = false := by
  rw [handleCandidate_of_ignored hig]
  constructor
  · intro hmem
    exact (mem_removeIgnore.1 hmem).2 rfl
  · simp only [is_ignored, hf, if_pos, decide_eq_true_eq]
    simp [mem_removeIgnore]

/-- Witness for C3 (amended) at a concrete input: `/r/f.mp3` is an ignored
existing file; after one suppression it is no longer suppressed. -/
theorem C3_one_shot_exact_match_witness :
    (["r", "f.mp3"] : Path) ∉
      ((handleCandidate fsFiles engNone ⟨⟨[]⟩, [], [["r", "f.mp3"]]⟩ ["r", "f.mp3"]).w).ignore ∧
    is_ignored fsFiles
      ((handleCandidate fsFiles engNone ⟨⟨[]⟩, [], [["r", "f.mp3"]]⟩ ["r", "f.mp3"]).w)
      ["r", "f.mp3"] = false :=
  C3_one_shot_exact_match fsFiles engNone ⟨⟨[]⟩, [], [["r", "f.mp3"]]⟩ ["r", "f.mp3"]
    (by decide) (by decide)

/-- C4: with non-overlapping configured roots, `root_for` returns R for R
itself and every descendant of R, and none for a path below no configured
root. -/
theorem C4_root_resolution (w : Watcher)
    (hdisj : ∀ r₁ r₂ : Path, (∃ v, (r₁, v) ∈ w.roots) → (∃ v, (r₂, v) ∈ w.roots) →
      r₁ <+: r₂ → r₁ = r₂) :
    (∀ (R : Path) (lib : String) (p : Path), (R, lib) ∈ w.roots → R <+: p →
      root_for w p = some R) ∧
    (∀ p : Path, (∀ (a : Path) (v : String), (a, v) ∈ w.roots → ¬ a <+: p) →
      root_for w p = none) := by
  constructor
  · intro R lib p hmem hpre
    have hsome : ((ancestors p).find? fun a => (w.roots.lookup a).isSome).isSome := by
      rw [List.find?_isSome]
      exact ⟨R, mem_ancestors.2 hpre, lookup_isSome_iff_exists.2 ⟨lib, hmem⟩⟩
    obtain ⟨A, hA⟩ := Option.isSome_iff_exists.1 hsome
    have hAanc : A <+: p := mem_ancestors.1 (List.mem_of_find?_eq_some hA)
    have hApred := List.find?_some hA
    obtain ⟨vA, hvA⟩ := lookup_isSome_iff_exists.1 hApred
    have hcomp := List.prefix_or_prefix_of_prefix hAanc hpre
    have hAR : A = R := by
      rcases hcomp with h | h
      · exact hdisj A R ⟨vA, hvA⟩ ⟨lib, hmem⟩ h
      · exact (hdisj R A ⟨lib, hmem⟩ ⟨vA, hvA⟩ h).symm
    unfold root_for
    rw [hA, hAR]
  · intro p hnone
    unfold root_for
    rw [List.find?_eq_none]
    intro a ha hs
    obtain ⟨v, hv⟩ := lookup_isSome_iff_exists.1 hs
    exact hnone a v hv (mem_ancestors.1 ha)

/-- Witness for C4 at concrete inputs: with the single root `/r`, the
descendant `/r/a` resolves to `/r` and the outside path `/x/y` resolves to
nothing. -/
theorem C4_root_resolution_witness :
    root_for wL ["r", "a"] = some ["r"] ∧ root_for wL ["x", "y"] = none := by
  have hdisj : ∀ r₁ r₂ : Path, (∃ v, (r₁, v) ∈ wL.roots) → (∃ v, (r₂, v) ∈ wL.roots) →
      r₁ <+: r₂ → r₁ = r₂ := by
    rintro r₁ r₂ ⟨v₁, h₁⟩ ⟨v₂, h₂⟩ -
    simp only [wL, List.mem_singleton, Prod.mk.injEq] at h₁ h₂
    rw [h₁.1, h₂.1]
  refine ⟨?_, ?_⟩
  · exact (C4_root_resolution wL hdisj).1 ["r"] "L" ["r", "a"] (by simp [wL]) ⟨["a"], rfl⟩
  · refine (C4_root_resolution wL hdisj).2 ["x", "y"] ?_
    intro a v hm
    simp only [wL, List.mem_singleton, Prod.mk.injEq] at hm
    rw [hm.1]
    decide

/-- C5: the candidates extracted from a rename-pair event are exactly the
paths at odd indices of its path list: for `[from, to]` just `to`, for a
coalesced chain `[p0, p1, p2, p3, p4]` exactly `[p1, p3]`, in order. -/
theorem C5_rename_candidates :
    (∀ (paths : List Path) (i : Nat),
      (candidates ⟨.renameBoth, paths⟩)[i]? = paths[2 * i + 1]?) ∧
    (∀ f t : Path, candidates ⟨.renameBoth, [f, t]⟩ = [t]) ∧
    (∀ p0 p1 p2 p3 p4 : Path,
      candidates ⟨.renameBoth, [p0, p1, p2, p3, p4]⟩ = [p1, p3]) := by
  refine ⟨?_, ?_, ?_⟩
  · intro paths i
    show (stepBy2 (paths.drop 1))[i]? = _
    rw [stepBy2_getElem?, List.getElem?_drop]
    congr 1
    omega
  · intro f t
    rfl
  · intro p0 p1 p2 p3 p4
    rfl

/-- C6 counterexample: the path `/x/y` is under no watched root of `wL`;
`move_files` does fail with `InvalidRoot` for it, but the failure is
silently dropped: `move_files` logs nothing and the event's whole
processing emits only the pre-classification debug line, contradicting the
claim that the failure is logged and never silently dropped. -/
theorem C6_counterexample :
    (move_files fsNone engNone wL ["x", "y"]).res = .error (.invalidRoot ["x", "y"]) ∧
    (move_files fsNone engNone wL ["x", "y"]).logs = [] ∧
    (handleEvent fsNone engNone wL ⟨.create, [["x", "y"]]⟩).logs =
      [.debugEvent ⟨.create, [["x", "y"]]⟩] := by
  decide

/-- C6 (amended): for a candidate path none of whose ancestors is a watched
root, `move_files` fails with `InvalidRoot` carrying that path, leaves the
state untouched and calls no engine; the watch loop swallows the error and
continues with the remaining candidates — but the failure is not logged
anywhere (neither `move_files` nor the loop emits a log line for it). -/
theorem C6_invalid_root_skipped (fs : FS) (eng : SortEngine) (w : Watcher)
    (p : Path) (rest : List Path)
    (h : ∀ a ∈ ancestors p, w.roots.lookup a = none)
    (hnig : is_ignored fs w p = false) :
    (move_files fs eng w p).res = .error (.invalidRoot p) ∧
    (move_files fs eng w p).logs = [] ∧
    (move_files fs eng w p).calls = [] ∧
    (move_files fs eng w p).w = w ∧
    (handleCandidates fs eng w (p :: rest)).w = (handleCandidates fs eng w rest).w ∧
    (handleCandidates fs eng w (p :: rest)).dispatched =
      p :: (handleCandidates fs eng w rest).dispatched ∧
    (handleCandidates fs eng w (p :: rest)).calls = (handleCandidates fs eng w rest).calls ∧
    (handleCandidates fs eng w (p :: rest)).logs = (handleCandidates fs eng w rest).logs := by
  have hroot : root_for w p = none := by
    unfold root_for
    rw [List.find?_eq_none]
    intro a ha hs
    rw [h a ha] at hs
    exact absurd hs (by simp)
  have hmv : move_files fs eng w p =
      { w := w, logs := [], calls := [], res := .error (.invalidRoot p) } := by
    unfold move_files
    rw [hroot]
  refine ⟨by rw [hmv], by rw [hmv], by rw [hmv], by rw [hmv], ?_, ?_, ?_, ?_⟩ <;>
    simp [handleCandidates, handleCandidate, hnig, hmv]

/-- Witness for C6 (amended) at a concrete input: candidate `/x/y` outside
the single root `/r`, followed by one further candidate. -/
theorem C6_invalid_root_skipped_witness :
    (move_files fsNone engNone wL ["x", "y"]).res = .error (.invalidRoot ["x", "y"]) ∧
    (move_files fsNone engNone wL ["x", "y"]).logs = [] ∧
    (move_files fsNone engNone wL ["x", "y"]).calls = [] ∧
    (move_files fsNone engNone wL ["x", "y"]).w = wL ∧
    (handleCandidates fsNone engNone wL [["x", "y"], ["r", "q"]]).w =
      (handleCandidates fsNone engNone wL [["r", "q"]]).w ∧
    (handleCandidates fsNone engNone wL [["x", "y"], ["r", "q"]]).dispatched =
      ["x", "y"] :: (handleCandidates fsNone engNone wL [["r", "q"]]).dispatched ∧
    (handleCandidates fsNone engNone wL [["x", "y"], ["r", "q"]]).calls =
      (handleCandidates fsNone engNone wL [["r", "q"]]).calls ∧
    (handleCandidates fsNone engNone wL [["x", "y"], ["r", "q"]]).logs =
      (handleCandidates fsNone engNone wL [["r", "q"]]).logs :=
  C6_invalid_root_skipped fsNone engNone wL ["x", "y"] [["r", "q"]]
    (by decide) (by decide)

theorem move_files_ok_logs {fs : FS} {eng : SortEngine} {w : Watcher} {p : Path}
    (h : (move_files fs eng w p).res = .ok ()) :
    (move_files fs eng w p).logs.any LogMsg.isSuccess = true := by
  unfold move_files at h ⊢
  cases hroot : root_for w p with
  | none => simp [hroot] at h
  | some root =>
    rw [hroot] at h
    by_cases hd : fs.isDir p = true
    · cases hsf : eng.sort_folder root p (optionsOf w ((w.roots.lookup root).getD "")) with
      | ok report => simp [hd, hsf, LogMsg.isSuccess]
      | error e => simp [hd, hsf] at h
    · have hd' : fs.isDir p = false := by simpa using hd
      cases hsf : eng.sort_file root p (optionsOf w ((w.roots.lookup root).getD "")) with
      | ok np =>
        cases hip : ignore_path w np root <;> simp [hd', hsf, hip, LogMsg.isSuccess]
      | error e => simp [hd', hsf] at h

/-- C7: an engine failure on one candidate does not abort the batch — in a
batch of three create events where the engine fails on the second, all
three candidates are dispatched in order, the final state is the threaded
composition of the three `move_files` calls, the successes of the first and
third are recorded in the log, and the batch log is the concatenation of
the per-candidate logs. -/
theorem C7_partial_failure_isolation (fs : FS) (eng : SortEngine) (w : Watcher)
    (p1 p2 p3 : Path) (e2 : Error)
    (h1 : is_ignored fs w p1 = false)
    (hm1 : (move_files fs eng w p1).res = .ok ())
    (h2 : is_ignored fs (move_files fs eng w p1).w p2 = false)
    (_hm2 : (move_files fs eng (move_files fs eng w p1).w p2).res = .error e2)
    (h3 : is_ignored fs (move_files fs eng (move_files fs eng w p1).w p2).w p3 = false)
    (hm3 : (move_files fs eng (move_files fs eng (move_files fs eng w p1).w p2).w
      p3).res = .ok ()) :
    (handleBatch fs eng w [⟨.create, [p1]⟩, ⟨.create, [p2]⟩, ⟨.create, [p3]⟩]).dispatched
      = [p1, p2, p3] ∧
    (handleBatch fs eng w [⟨.create, [p1]⟩, ⟨.create, [p2]⟩, ⟨.create, [p3]⟩]).w
      = (move_files fs eng (move_files fs eng (move_files fs eng w p1).w p2).w p3).w ∧
    (move_files fs eng w p1).logs.any LogMsg.isSuccess = true ∧
    (move_files fs eng (move_files fs eng (move_files fs eng w p1).w p2).w
      p3).logs.any LogMsg.isSuccess = true ∧
    (handleBatch fs eng w [⟨.create, [p1]⟩, ⟨.create, [p2]⟩, ⟨.create, [p3]⟩]).logs =
      .debugEvent ⟨.create, [p1]⟩ :: (move_files fs eng w p1).logs ++
        (.debugEvent ⟨.create, [p2]⟩ :: (move_files fs eng (move_files fs eng w p1).w p2).logs ++
          (.debugEvent ⟨.create, [p3]⟩ ::
            (move_files fs eng (move_files fs eng (move_files fs eng w p1).w p2).w
              p3).logs)) := by
  refine ⟨?_, ?_, move_files_ok_logs hm1, move_files_ok_logs hm3, ?_⟩ <;>
    simp [handleBatch, handleEvent, candidates, handleCandidates, handleCandidate, h1, h2, h3]

/-- Witness for C7 at a concrete input: three files under `/r`, the engine
failing on the second. -/
theorem C7_partial_failure_isolation_witness :
    (handleBatch fsFiles engC7 wL
      [⟨.create, [["r", "a"]]⟩, ⟨.create, [["r", "b"]]⟩, ⟨.create, [["r", "c"]]⟩]).dispatched
      = [["r", "a"], ["r", "b"], ["r", "c"]] ∧
    (handleBatch fsFiles engC7 wL
      [⟨.create, [["r", "a"]]⟩, ⟨.create, [["r", "b"]]⟩, ⟨.create, [["r", "c"]]⟩]).w
      = (move_files fsFiles engC7
          (move_files fsFiles engC7 (move_files fsFiles engC7 wL ["r", "a"]).w ["r", "b"]).w
          ["r", "c"]).w ∧
    (move_files fsFiles engC7 wL ["r", "a"]).logs.any LogMsg.isSuccess = true ∧
    (move_files fsFiles engC7
      (move_files fsFiles engC7 (move_files fsFiles engC7 wL ["r", "a"]).w ["r", "b"]).w
      ["r", "c"]).logs.any LogMsg.isSuccess = true ∧
    (handleBatch fsFiles engC7 wL
      [⟨.create, [["r", "a"]]⟩, ⟨.create, [["r", "b"]]⟩, ⟨.create, [["r", "c"]]⟩]).logs =
      .debugEvent ⟨.create, [["r", "a"]]⟩ :: (move_files fsFiles engC7 wL ["r", "a"]).logs ++
        (.debugEvent ⟨.create, [["r", "b"]]⟩ ::
          (move_files fsFiles engC7 (move_files fsFiles engC7 wL ["r", "a"]).w ["r", "b"]).logs ++
          (.debugEvent ⟨.create, [["r", "c"]]⟩ ::
            (move_files fsFiles engC7
              (move_files fsFiles engC7 (move_files fsFiles engC7 wL ["r", "a"]).w ["r", "b"]).w
              ["r", "c"]).logs)) :=
  C7_partial_failure_isolation fsFiles engC7 wL ["r", "a"] ["r", "b"] ["r", "c"]
    (.sortError "boom")
    (by decide) (by decide) (by decide) (by decide) (by decide) (by decide)

theorem move_files_calls {fs : FS} {eng : SortEngine} {w : Watcher} {p root : Path}
    (hr : root_for w p = some root) :
    (move_files fs eng w p).calls =
      [if fs.isDir p then
        EngineCall.folder root p (optionsOf w ((w.roots.lookup root).getD ""))
      else EngineCall.file root p (optionsOf w ((w.roots.lookup root).getD ""))] := by
  unfold move_files
  rw [hr]
  by_cases hd : fs.isDir p = true
  · cases hsf : eng.sort_folder root p (optionsOf w ((w.roots.lookup root).getD "")) <;>
      simp [hd, hsf]
  · have hd' : fs.isDir p = false := by simpa using hd
    cases hsf : eng.sort_file root p (optionsOf w ((w.roots.lookup root).getD "")) with
    | ok np => cases hip : ignore_path w np root <;> simp [hd', hsf, hip]
    | error e => simp [hd', hsf]

/-- C8: for every dispatched candidate, the engine is invoked exactly once,
on the resolved root and the candidate path, with options: the library's
configured format, dryrun off, recursive on, remove-empty on, and the
library's configured FAT32-compatibility flag — where the library is the
one the Root Index maps the resolved root to. -/
theorem C8_dispatch_options (fs : FS) (eng : SortEngine) (w : Watcher)
    (p root : Path) (lib fmt : String)
    (hr : root_for w p = some root)
    (hl : w.roots.lookup root = some lib)
    (hf : w.config.format_of lib = some fmt) :
    (move_files fs eng w p).calls.length = 1 ∧
    ∀ c ∈ (move_files fs eng w p).calls,
      c.root = root ∧ c.path = p ∧
      c.opts = { format := fmt, dryrun := false, recursive := true,
                 exfat_compat := w.config.is_exfat_compat lib, remove_empty := true } := by
  have hopts : optionsOf w ((w.roots.lookup root).getD "") =
      { format := fmt, dryrun := false, recursive := true,
        exfat_compat := w.config.is_exfat_compat lib, remove_empty := true } := by
    rw [hl]
    simp [optionsOf, hf]
  rw [move_files_calls hr, hopts]
  refine ⟨by simp, ?_⟩
  intro c hc
  rw [List.mem_singleton] at hc
  subst hc
  by_cases hd : fs.isDir p = true <;>
    simp [hd, EngineCall.root, EngineCall.path, EngineCall.opts]

/-- Witness for C8 at a concrete input: the file `/r/a` under root `/r` of
library `L` with format `"f"` and FAT32 compatibility on. -/
theorem C8_dispatch_options_witness :
    (move_files fsFiles engC7 wL ["r", "a"]).calls.length = 1 ∧
    ∀ c ∈ (move_files fsFiles engC7 wL ["r", "a"]).calls,
      c.root = ["r"] ∧ c.path = ["r", "a"] ∧
      c.opts = { format := "f", dryrun := false, recursive := true,
                 exfat_compat := wL.config.is_exfat_compat "L", remove_empty := true } :=
  C8_dispatch_options fsFiles engC7 wL ["r", "a"] ["r"] "L" "f"
    (by decide) (by decide) (by decide)

theorem watchloopFuel_eq_none (fs : FS) (eng : SortEngine) :
    ∀ (fuel : Nat) (w : Watcher) (stream : List (Except Unit (List Event))),
      watchloopFuel fs eng fuel w stream = none
  | 0, _, _ => rfl
  | fuel + 1, w, stream => watchloopFuel_eq_none fs eng fuel (drain fs eng w stream).w []

/-- C9 counterexample: even for an already exhausted/closed event source
(an empty stream) the watch loop never returns — the outer `loop` restarts
the drained iteration indefinitely, so no number of outer iterations yields
a return. -/
theorem C9_counterexample :
    ¬ ∃ fuel : Nat, watchloopFuel fsNone engNone fuel wL [] = some () := by
  rintro ⟨fuel, hf⟩
  rw [watchloopFuel_eq_none] at hf
  exact Option.noConfusion hf

/-- C9 (amended): `watchloop` never returns: exhaustion or closure of the
event source ends one pass of the inner `for`, but the outer `loop` then
spins forever; the loop also never terminates on a processing error.
Termination is only external (process kill). -/
theorem C9_watchloop_never_returns (fs : FS) (eng : SortEngine) (fuel : Nat)
    (w : Watcher) (stream : List (Except Unit (List Event))) :
    watchloopFuel fs eng fuel w stream = none :=
  watchloopFuel_eq_none fs eng fuel w stream

theorem ignore_path_error {w : Watcher} {p root : Path} {e : Error}
    (h : ignore_path w p root = .error e) : e = .invalidParent p := by
  unfold ignore_path at h
  cases hp : parent p with
  | none =>
    rw [hp] at h
    injection h with h
    exact h.symm
  | some par =>
    rw [hp] at h
    exact Except.noConfusion h

theorem ignoreAll_error {root : Path} :
    ∀ {w : Watcher} {ps : List Path} {w' : Watcher} {e : Error},
      ignoreAll w root ps = (w', .error e) → ∃ c, e = .invalidParent c := by
  intro w ps
  induction ps generalizing w with
  | nil =>
    intro w' e h
    simp [ignoreAll] at h
  | cons p ps ih =>
    intro w' e h
    unfold ignoreAll at h
    cases hip : ignore_path w p root with
    | ok w'' =>
      rw [hip] at h
      exact ih h
    | error e' =>
      rw [hip] at h
      obtain ⟨-, h2⟩ := Prod.mk.injEq .. ▸ h
      injection h with h1 h2
      injection h2 with h2
      exact ⟨p, h2 ▸ ignore_path_error hip⟩

/-- C10: when `move_files` returns an `InvalidRoot` or sorting-engine
error, the ignore set (indeed the whole watcher state) is unchanged by the
call — entries are inserted only after the engine reports success. -/
theorem C10_no_insert_on_error (fs : FS) (eng : SortEngine) (w : Watcher)
    (p : Path) (e : Error)
    (h : (move_files fs eng w p).res = .error e)
    (he : (∃ q, e = .invalidRoot q) ∨ ∃ s, e = .sortError s) :
    (move_files fs eng w p).w = w := by
  unfold move_files at h ⊢
  cases hroot : root_for w p with
  | none => simp
  | some root =>
    rw [hroot] at h
    by_cases hd : fs.isDir p = true
    · cases hsf : eng.sort_folder root p (optionsOf w ((w.roots.lookup root).getD "")) with
      | error e' => simp [hd, hsf]
      | ok report =>
        rcases hia : ignoreAll w root report.new_paths with ⟨w', res⟩
        cases res with
        | ok u => simp [hd, hsf, hia] at h
        | error e'' =>
          obtain ⟨c, hc⟩ := ignoreAll_error hia
          simp [hd, hsf, hia] at h
          rcases he with ⟨q, rfl⟩ | ⟨s, rfl⟩ <;> (rw [h] at hc; exact Error.noConfusion hc)
    · have hd' : fs.isDir p = false := by simpa using hd
      cases hsf : eng.sort_file root p (optionsOf w ((w.roots.lookup root).getD "")) with
      | error e' => simp [hd', hsf]
      | ok np =>
        cases hip : ignore_path w np root with
        | ok w' => simp [hd', hsf, hip] at h
        | error e'' =>
          have hc := ignore_path_error hip
          simp [hd', hsf, hip] at h
          rcases he with ⟨q, rfl⟩ | ⟨s, rfl⟩ <;> (rw [h] at hc; exact Error.noConfusion hc)

/-- Witness for C10 at a concrete input: the `InvalidRoot` failure for
`/x/y` leaves the watcher unchanged. -/
theorem C10_no_insert_on_error_witness :
    (move_files fsNone engNone wL ["x", "y"]).w = wL :=
  C10_no_insert_on_error fsNone engNone wL ["x", "y"] (.invalidRoot ["x", "y"])
    (by decide) (Or.inl ⟨["x", "y"], rfl⟩)

end Muso
